import Mathlib

/-!
Shallow embedding of the offline persistence services of the todo-note app
(`src/services/noteService.ts`: `NoteService` and `TodoService`), together
with the data model of `src/types/note.types.ts` and `todo.types.ts`.

Modelling conventions:
* JavaScript clock values (`Date.now()`, milliseconds) are `Nat`.  The ISO-8601
  strings produced by `new Date().toISOString()` are in order-preserving
  bijection with their millisecond value, so the embedding represents a stored
  `createdAt` / `updatedAt` ISO string by that millisecond value; the
  comparison `new Date(b.updatedAt).getTime() - new Date(a.updatedAt).getTime()`
  becomes a comparison of those values.  `Date.now().toString()` (the decimal
  string of the clock) becomes `Nat.repr`.
* `AsyncStorage` is a key-value store from `String` keys to raw stored values.
  A raw value is either a JSON serialization of a note list, of a todo list,
  or an unparseable string (`corrupt`, on which `JSON.parse` throws).  A set of
  `failing` keys models `getItem` itself throwing (storage read error).
  `setItem` is modelled as always succeeding: no claim concerns write failure.
* Each operation takes the store (and, when it reads the clock, the current
  time `now`) and returns its result together with the resulting store.
  A thrown exception is `Except.error` carrying the message string, and the
  store component of the result is the store at throw time (unchanged, since
  every throw happens before any write).
* TypeScript optional dto fields are `Option`: `none` is an absent key, and
  for a field that is itself optional on the entity (`category`, `tags`,
  `description`, `dueDate`) the dto field is `Option (Option _)` so that an
  explicitly present key is distinguished from an absent one under object
  spread.
-/

inductive Priority where
  | low
  | medium
  | high
deriving DecidableEq, Repr

/-- Structure `Todo` from `src/types/todo.types.ts`. -/
structure Todo where
  id : String
  title : String
  description : Option String
  completed : Bool
  priority : Priority
  dueDate : Option String
  createdAt : Nat
  updatedAt : Nat
deriving DecidableEq, Repr

/-- Structure `Note` from `src/types/note.types.ts`. -/
structure Note where
  id : String
  title : String
  content : String
  category : Option String
  tags : Option (List String)
  isPinned : Bool
  createdAt : Nat
  updatedAt : Nat
deriving DecidableEq, Repr

/-- Structure `CreateTodoDto` from `src/types/todo.types.ts`. -/
structure CreateTodoDto where
  title : String
  description : Option String
  priority : Option Priority
  dueDate : Option String
deriving DecidableEq, Repr

/-- Structure `UpdateTodoDto = Partial<CreateTodoDto> & \x7b completed? \x7d`. -/
structure UpdateTodoDto where
  title : Option String
  description : Option (Option String)
  priority : Option Priority
  dueDate : Option (Option String)
  completed : Option Bool
deriving DecidableEq, Repr

/-- Structure `CreateNoteDto` from `src/types/note.types.ts`. -/
structure CreateNoteDto where
  title : String
  content : String
  category : Option String
  tags : Option (List String)
  isPinned : Option Bool
deriving DecidableEq, Repr

/-- Structure `UpdateNoteDto extends Partial<CreateNoteDto>`. -/
structure UpdateNoteDto where
  title : Option String
  content : Option String
  category : Option (Option String)
  tags : Option (Option (List String))
  isPinned : Option Bool
deriving DecidableEq, Repr

/-- A raw value stored under some key of the key-value store: a JSON string
that parses to a list of notes, one that parses to a list of todos, or an
unparseable string. -/
inductive RawVal where
  | notesJson (ns : List Note)
  | todosJson (ts : List Todo)
  | corrupt
deriving DecidableEq, Repr

/-- The device-local key-value store (`AsyncStorage`).  `vals` is the mapping
from keys to stored raw values; `failing` marks keys on which a storage read
(`getItem`) throws. -/
structure Store where
  vals : String → Option RawVal
  failing : String → Bool

/-- Model of `AsyncStorage.getItem`: throws on a failing key, otherwise returns the
stored value (`none` for an absent key). -/
def AsyncStorage.getItem (s : Store) (k : String) : Except String (Option RawVal) :=
  if s.failing k then Except.error "storage read error" else Except.ok (s.vals k)

/-- Model of `AsyncStorage.setItem`. -/
def AsyncStorage.setItem (s : Store) (k : String) (v : RawVal) : Store :=
  { s with vals := fun q => if q = k then some v else s.vals q }

/-- Model of `AsyncStorage.removeItem`. -/
def AsyncStorage.removeItem (s : Store) (k : String) : Store :=
  { s with vals := fun q => if q = k then none else s.vals q }

/-- Model of `JSON.parse` applied to a raw value expected to be a note list.  A corrupt string
throws; a value of the wrong shape is also modelled as a parse failure (the
services never store one under the notes key). -/
def parseNotes : RawVal → Except String (List Note)
  | RawVal.notesJson ns => Except.ok ns
  | _ => Except.error "SyntaxError"

/-- Model of `JSON.parse` applied to a raw value expected to be a todo list. -/
def parseTodos : RawVal → Except String (List Todo)
  | RawVal.todosJson ts => Except.ok ts
  | _ => Except.error "SyntaxError"

/-- The constant `NoteService.STORAGE_KEY`. -/
def NoteService.STORAGE_KEY : String := "@notes"

/-- The constant `TodoService.STORAGE_KEY`. -/
def TodoService.STORAGE_KEY : String := "@todos"

/-- The comparator of `NoteService.getNotes`, as the Boolean relation
"`a` may be placed before `b`" (comparator result `<= 0`):
`if (a.isPinned !== b.isPinned) return a.isPinned ? -1 : 1;`
`return new Date(b.updatedAt).getTime() - new Date(a.updatedAt).getTime();`. -/
def noteLE (a b : Note) : Bool :=
  if a.isPinned != b.isPinned then a.isPinned else b.updatedAt ≤ a.updatedAt

/-- Model of `NoteService.getNotes`: read the notes key, parse, sort pinned-first then
`updatedAt` descending; any error in the `try` block yields `[]`.
`Array.prototype.sort` is stable (ES2019), modelled by `List.mergeSort`. -/
def NoteService.getNotes (s : Store) : List Note :=
  match AsyncStorage.getItem s NoteService.STORAGE_KEY with
  | Except.error _ => []
  | Except.ok none => []
  | Except.ok (some raw) =>
    match parseNotes raw with
    | Except.error _ => []
    | Except.ok notes => notes.mergeSort noteLE

/-- Model of `NoteService.saveNotes` (write modelled as always succeeding). -/
def NoteService.saveNotes (notes : List Note) (s : Store) : Store :=
  AsyncStorage.setItem s NoteService.STORAGE_KEY (RawVal.notesJson notes)

/-- Model of `NoteService.getNoteById`: `notes.find((note) => note.id === id) || null`. -/
def NoteService.getNoteById (id : String) (s : Store) : Option Note :=
  (NoteService.getNotes s).find? (fun note => note.id == id)

/-- The new note built by `NoteService.createNote`:
`id: Date.now().toString()`, `tags: data.tags || []` (an empty array is truthy,
so only an absent `tags` becomes `[]`), `isPinned: data.isPinned || false`. -/
def mkNote (data : CreateNoteDto) (now : Nat) : Note :=
  { id := Nat.repr now
    title := data.title
    content := data.content
    category := data.category
    tags := some (data.tags.getD [])
    isPinned := data.isPinned.getD false
    createdAt := now
    updatedAt := now }

/-- Model of `NoteService.createNote`: load, push, save, return the new note. -/
def NoteService.createNote (data : CreateNoteDto) (now : Nat) (s : Store) :
    Note × Store :=
  let notes := NoteService.getNotes s
  let newNote := mkNote data now
  (newNote, NoteService.saveNotes (notes ++ [newNote]) s)

/-- The object spread `\x7b ...notes[index], ...data, updatedAt: <now> \x7d`:
a key present in the dto overrides the old field, `id` and `createdAt` are not
dto keys and are kept, `updatedAt` is overwritten with the current time. -/
def applyNoteUpdate (n : Note) (d : UpdateNoteDto) (now : Nat) : Note :=
  { id := n.id
    title := d.title.getD n.title
    content := d.content.getD n.content
    category := d.category.getD n.category
    tags := d.tags.getD n.tags
    isPinned := d.isPinned.getD n.isPinned
    createdAt := n.createdAt
    updatedAt := now }

/-- Mirrors `findIndex((note) => note.id === id)` followed by assignment at the found
index: replaces the first element whose id matches with its updated version,
returning it and the updated list; `none` when no element matches
(`findIndex` returned `-1`). -/
def updateNoteInList (id : String) (d : UpdateNoteDto) (now : Nat) :
    List Note → Option (Note × List Note)
  | [] => none
  | n :: ns =>
    if n.id == id then
      let updated := applyNoteUpdate n d now
      some (updated, updated :: ns)
    else
      match updateNoteInList id d now ns with
      | none => none
      | some (updated, ns2) => some (updated, n :: ns2)

/-- Model of `NoteService.updateNote`: load, find index, throw `Note not found` when
absent, otherwise overwrite the entry, save, return the updated note. -/
def NoteService.updateNote (id : String) (d : UpdateNoteDto) (now : Nat)
    (s : Store) : Except String Note × Store :=
  let notes := NoteService.getNotes s
  match updateNoteInList id d now notes with
  | none => (Except.error "Note not found", s)
  | some (updated, notes2) => (Except.ok updated, NoteService.saveNotes notes2 s)

/-- Model of `NoteService.deleteNote`: load, `filter((note) => note.id !== id)`, save. -/
def NoteService.deleteNote (id : String) (s : Store) : Store :=
  let notes := NoteService.getNotes s
  NoteService.saveNotes (notes.filter (fun note => !(note.id == id))) s

/-- Model of `NoteService.togglePinNote`: `null` when the id is absent, otherwise
`updateNote(id, \x7b isPinned: !note.isPinned \x7d)`. -/
def NoteService.togglePinNote (id : String) (now : Nat) (s : Store) :
    Except String (Option Note) × Store :=
  match NoteService.getNoteById id s with
  | none => (Except.ok none, s)
  | some note =>
    let r := NoteService.updateNote id
      { title := none, content := none, category := none, tags := none,
        isPinned := some (!note.isPinned) } now s
    (r.1.map some, r.2)

/-- Model of `NoteService.clearAllNotes`. -/
def NoteService.clearAllNotes (s : Store) : Store :=
  AsyncStorage.removeItem s NoteService.STORAGE_KEY

/-- The note list currently serialized under the notes key (`[]` when the key
is absent or holds anything else); used to phrase frame properties. -/
def storedNotes (s : Store) : List Note :=
  match s.vals NoteService.STORAGE_KEY with
  | some (RawVal.notesJson ns) => ns
  | _ => []

/-- Model of `TodoService.getTodos`: read the todos key and parse; any error in the
`try` block yields `[]`.  No sorting. -/
def TodoService.getTodos (s : Store) : List Todo :=
  match AsyncStorage.getItem s TodoService.STORAGE_KEY with
  | Except.error _ => []
  | Except.ok none => []
  | Except.ok (some raw) =>
    match parseTodos raw with
    | Except.error _ => []
    | Except.ok todos => todos

/-- Model of `TodoService.saveTodos` (write modelled as always succeeding). -/
def TodoService.saveTodos (todos : List Todo) (s : Store) : Store :=
  AsyncStorage.setItem s TodoService.STORAGE_KEY (RawVal.todosJson todos)

/-- Model of `TodoService.getTodoById`. -/
def TodoService.getTodoById (id : String) (s : Store) : Option Todo :=
  (TodoService.getTodos s).find? (fun todo => todo.id == id)

/-- The new todo built by `TodoService.createTodo`:
`id: Date.now().toString()`, `completed: false`,
`priority: data.priority || 'medium'` (priority strings are non-empty, hence
truthy, so only an absent priority becomes `'medium'`). -/
def mkTodo (data : CreateTodoDto) (now : Nat) : Todo :=
  { id := Nat.repr now
    title := data.title
    description := data.description
    completed := false
    priority := data.priority.getD Priority.medium
    dueDate := data.dueDate
    createdAt := now
    updatedAt := now }

/-- Model of `TodoService.createTodo`: load, push, save, return the new todo. -/
def TodoService.createTodo (data : CreateTodoDto) (now : Nat) (s : Store) :
    Todo × Store :=
  let todos := TodoService.getTodos s
  let newTodo := mkTodo data now
  (newTodo, TodoService.saveTodos (todos ++ [newTodo]) s)

/-- The object spread `\x7b ...todos[index], ...data, updatedAt: <now> \x7d`. -/
def applyTodoUpdate (t : Todo) (d : UpdateTodoDto) (now : Nat) : Todo :=
  { id := t.id
    title := d.title.getD t.title
    description := d.description.getD t.description
    completed := d.completed.getD t.completed
    priority := d.priority.getD t.priority
    dueDate := d.dueDate.getD t.dueDate
    createdAt := t.createdAt
    updatedAt := now }

/-- Mirrors `findIndex((todo) => todo.id === id)` followed by assignment at the found
index (see `updateNoteInList`). -/
def updateTodoInList (id : String) (d : UpdateTodoDto) (now : Nat) :
    List Todo → Option (Todo × List Todo)
  | [] => none
  | t :: ts =>
    if t.id == id then
      let updated := applyTodoUpdate t d now
      some (updated, updated :: ts)
    else
      match updateTodoInList id d now ts with
      | none => none
      | some (updated, ts2) => some (updated, t :: ts2)

/-- Model of `TodoService.updateTodo`: load, find index, throw `Todo not found` when
absent, otherwise overwrite the entry, save, return the updated todo. -/
def TodoService.updateTodo (id : String) (d : UpdateTodoDto) (now : Nat)
    (s : Store) : Except String Todo × Store :=
  let todos := TodoService.getTodos s
  match updateTodoInList id d now todos with
  | none => (Except.error "Todo not found", s)
  | some (updated, todos2) => (Except.ok updated, TodoService.saveTodos todos2 s)

/-- Model of `TodoService.deleteTodo`: load, `filter((todo) => todo.id !== id)`, save. -/
def TodoService.deleteTodo (id : String) (s : Store) : Store :=
  let todos := TodoService.getTodos s
  TodoService.saveTodos (todos.filter (fun todo => !(todo.id == id))) s

/-- Model of `TodoService.toggleTodo`: `null` when the id is absent, otherwise
`updateTodo(id, \x7b completed: !todo.completed \x7d)`. -/
def TodoService.toggleTodo (id : String) (now : Nat) (s : Store) :
    Except String (Option Todo) × Store :=
  match TodoService.getTodoById id s with
  | none => (Except.ok none, s)
  | some todo =>
    let r := TodoService.updateTodo id
      { title := none, description := none, priority := none, dueDate := none,
        completed := some (!todo.completed) } now s
    (r.1.map some, r.2)

/-- Model of `TodoService.clearAllTodos`. -/
def TodoService.clearAllTodos (s : Store) : Store :=
  AsyncStorage.removeItem s TodoService.STORAGE_KEY

/-- The result record of `TodoService.getTodosStats`. -/
structure TodosStats where
  total : Nat
  completed : Nat
  active : Nat
  highPriority : Nat
deriving DecidableEq, Repr

/-- Model of `TodoService.getTodosStats`: counts over the loaded todo list. -/
def TodoService.getTodosStats (s : Store) : TodosStats :=
  let todos := TodoService.getTodos s
  { total := todos.length
    completed := (todos.filter (fun t => t.completed)).length
    active := (todos.filter (fun t => !t.completed)).length
    highPriority :=
      (todos.filter (fun t => t.priority == Priority.high && !t.completed)).length }

/-- The todo list currently serialized under the todos key (`[]` when the key
is absent or holds anything else); used to phrase frame properties. -/
def storedTodos (s : Store) : List Todo :=
  match s.vals TodoService.STORAGE_KEY with
  | some (RawVal.todosJson ts) => ts
  | _ => []

/-! ### Helper lemmas -/

/-- On a readable store the loaded note list is the stored list sorted. -/
theorem getNotes_good {s : Store} {ns : List Note}
    (hf : s.failing NoteService.STORAGE_KEY = false)
    (hv : s.vals NoteService.STORAGE_KEY = some (RawVal.notesJson ns)) :
    NoteService.getNotes s = ns.mergeSort noteLE := by
  simp [NoteService.getNotes, AsyncStorage.getItem, hf, hv, parseNotes]

/-- On a readable store the loaded todo list is the stored list unchanged. -/
theorem getTodos_good {s : Store} {ts : List Todo}
    (hf : s.failing TodoService.STORAGE_KEY = false)
    (hv : s.vals TodoService.STORAGE_KEY = some (RawVal.todosJson ts)) :
    TodoService.getTodos s = ts := by
  simp [TodoService.getTodos, AsyncStorage.getItem, hf, hv, parseTodos]

theorem noteLE_trans (a b c : Note) (hab : noteLE a b = true)
    (hbc : noteLE b c = true) : noteLE a c = true := by
  simp only [noteLE] at *
  cases ha : a.isPinned <;> cases hb : b.isPinned <;> cases hc : c.isPinned <;>
    simp_all <;> omega

theorem noteLE_total (a b : Note) : (noteLE a b || noteLE b a) = true := by
  simp only [noteLE]
  cases ha : a.isPinned <;> cases hb : b.isPinned <;> simp_all <;> omega

/-- The pairwise order claimed for `getNotes` output: pinned strictly before
unpinned, and inside a group non-increasing `updatedAt`. -/
def noteClaimOrder (a b : Note) : Prop :=
  (a.isPinned = true ∧ b.isPinned = false) ∨
  (a.isPinned = b.isPinned ∧ b.updatedAt ≤ a.updatedAt)

theorem noteLE_imp_claimOrder (a b : Note) (h : noteLE a b = true) :
    noteClaimOrder a b := by
  simp only [noteLE] at h
  cases ha : a.isPinned <;> cases hb : b.isPinned <;>
    simp_all [noteClaimOrder]

/-! ### Claims -/

/-- C1: for every stored collection of notes, `getNotes` returns a permutation
of that collection with all pinned notes before all unpinned notes and, within
each group, ordered by `updatedAt` descending. -/
theorem C1_getNotes_sorted (s : Store) (ns : List Note)
    (hf : s.failing NoteService.STORAGE_KEY = false)
    (hv : s.vals NoteService.STORAGE_KEY = some (RawVal.notesJson ns)) :
    (NoteService.getNotes s).Perm ns ∧
    (NoteService.getNotes s).Pairwise noteClaimOrder := by
  rw [getNotes_good hf hv]
  refine ⟨List.mergeSort_perm ns noteLE, ?_⟩
  exact (List.sorted_mergeSort noteLE_trans noteLE_total ns).imp
    (fun h => noteLE_imp_claimOrder _ _ h)

def exNoteA : Note :=
  { id := "10", title := "a", content := "ca", category := none, tags := none,
    isPinned := false, createdAt := 1, updatedAt := 5 }

def exNoteB : Note :=
  { id := "11", title := "b", content := "cb", category := some "work",
    tags := some ["t"], isPinned := true, createdAt := 2, updatedAt := 3 }

def exNoteC : Note :=
  { id := "12", title := "c", content := "cc", category := none, tags := none,
    isPinned := false, createdAt := 3, updatedAt := 9 }

def exTodoA : Todo :=
  { id := "20", title := "ta", description := none, completed := false,
    priority := Priority.high, dueDate := none, createdAt := 1, updatedAt := 1 }

def exTodoB : Todo :=
  { id := "21", title := "tb", description := some "d", completed := true,
    priority := Priority.high, dueDate := some "2026-01-01",
    createdAt := 2, updatedAt := 2 }

/-- A store holding three notes and two todos, readable everywhere. -/
def exStore : Store :=
  { vals := fun k =>
      if k = "@notes" then some (RawVal.notesJson [exNoteA, exNoteB, exNoteC])
      else if k = "@todos" then some (RawVal.todosJson [exTodoA, exTodoB])
      else none
    failing := fun _ => false }

theorem C1_witness :
    (NoteService.getNotes exStore).Perm [exNoteA, exNoteB, exNoteC] ∧
    (NoteService.getNotes exStore).Pairwise noteClaimOrder :=
  C1_getNotes_sorted exStore [exNoteA, exNoteB, exNoteC] rfl rfl

/-- C3: for every create operation the id of the new record is the decimal
string of the creation-time clock value, so two creations at the same clock
tick (for any dtos and any store contents) receive the same id. -/
theorem C3_create_id_from_clock (dn dn2 : CreateNoteDto) (dt dt2 : CreateTodoDto)
    (now : Nat) (s1 s2 : Store) :
    (NoteService.createNote dn now s1).1.id = Nat.repr now ∧
    (TodoService.createTodo dt now s1).1.id = Nat.repr now ∧
    (NoteService.createNote dn now s1).1.id = (NoteService.createNote dn2 now s2).1.id ∧
    (TodoService.createTodo dt now s1).1.id = (TodoService.createTodo dt2 now s2).1.id ∧
    (NoteService.createNote dn now s1).1.id = (TodoService.createTodo dt now s2).1.id := by
  simp [NoteService.createNote, TodoService.createTodo, mkNote, mkTodo]

/-- C6: `createTodo` returns a todo with exactly the declared fields, with
`completed = false`, `priority` the dto's priority when given and `medium`
otherwise (always a legal priority), and `createdAt = updatedAt`. -/
theorem C6_createTodo_fields (d : CreateTodoDto) (now : Nat) (s : Store) :
    (TodoService.createTodo d now s).1 =
      { id := Nat.repr now, title := d.title, description := d.description,
        completed := false, priority := d.priority.getD Priority.medium,
        dueDate := d.dueDate, createdAt := now, updatedAt := now } ∧
    ((TodoService.createTodo d now s).1.priority = Priority.low ∨
     (TodoService.createTodo d now s).1.priority = Priority.medium ∨
     (TodoService.createTodo d now s).1.priority = Priority.high) ∧
    (TodoService.createTodo d now s).1.createdAt =
      (TodoService.createTodo d now s).1.updatedAt := by
  refine ⟨rfl, ?_, rfl⟩
  cases h : (TodoService.createTodo d now s).1.priority <;> simp

/-- C5: when the storage read throws or the stored value fails to parse,
`getNotes` and `getTodos` swallow the error and return the empty list. -/
theorem C5_read_failure_empty (s t : Store)
    (hs : s.failing NoteService.STORAGE_KEY = true ∨
          s.vals NoteService.STORAGE_KEY = some RawVal.corrupt)
    (ht : t.failing TodoService.STORAGE_KEY = true ∨
          t.vals TodoService.STORAGE_KEY = some RawVal.corrupt) :
    NoteService.getNotes s = [] ∧ TodoService.getTodos t = [] := by
  constructor
  · rcases hs with h | h
    · simp [NoteService.getNotes, AsyncStorage.getItem, h]
    · cases hf : s.failing NoteService.STORAGE_KEY <;>
        simp [NoteService.getNotes, AsyncStorage.getItem, h, hf, parseNotes]
  · rcases ht with h | h
    · simp [TodoService.getTodos, AsyncStorage.getItem, h]
    · cases hf : t.failing TodoService.STORAGE_KEY <;>
        simp [TodoService.getTodos, AsyncStorage.getItem, h, hf, parseTodos]

/-- A store whose notes value is unparseable and whose todos key throws on
read. -/
def exBadStore : Store :=
  { vals := fun k => if k = "@notes" then some RawVal.corrupt else none
    failing := fun k => k == "@todos" }

theorem C5_witness :
    NoteService.getNotes exBadStore = [] ∧ TodoService.getTodos exBadStore = [] :=
  C5_read_failure_empty exBadStore exBadStore (Or.inr rfl) (Or.inl rfl)

/-- C10: the statistics satisfy `completed + active = total`, `total` is the
number of stored todos, and `highPriority` counts exactly the stored todos of
high priority that are not completed. -/
theorem C10_stats (s : Store) (ts : List Todo)
    (hf : s.failing TodoService.STORAGE_KEY = false)
    (hv : s.vals TodoService.STORAGE_KEY = some (RawVal.todosJson ts)) :
    (TodoService.getTodosStats s).total = ts.length ∧
    (TodoService.getTodosStats s).completed + (TodoService.getTodosStats s).active =
      (TodoService.getTodosStats s).total ∧
    (TodoService.getTodosStats s).highPriority =
      (ts.filter (fun t => t.priority == Priority.high && !t.completed)).length := by
  have hload := getTodos_good hf hv
  refine ⟨by simp [TodoService.getTodosStats, hload], ?_, by simp [TodoService.getTodosStats, hload]⟩
  simp only [TodoService.getTodosStats, hload]
  have h := List.length_eq_length_filter_add (l := ts) (fun t => t.completed)
  simp only at h
  omega

theorem C10_witness :
    (TodoService.getTodosStats exStore).total = 2 ∧
    (TodoService.getTodosStats exStore).completed + (TodoService.getTodosStats exStore).active =
      (TodoService.getTodosStats exStore).total ∧
    (TodoService.getTodosStats exStore).highPriority = 1 := by
  have h := C10_stats exStore [exTodoA, exTodoB] rfl rfl
  refine ⟨?_, h.2.1, ?_⟩
  · rw [h.1]; rfl
  · rw [h.2.2]; rfl

/-- The helper `updateNoteInList` succeeds exactly by splitting the list at the first
matching element and replacing it with its updated version. -/
theorem updateNoteInList_some_spec (id : String) (d : UpdateNoteDto) (now : Nat) :
    ∀ (l : List Note) (n' : Note) (l' : List Note),
      updateNoteInList id d now l = some (n', l') →
      ∃ p old q, l = p ++ old :: q ∧ l' = p ++ n' :: q ∧
        (old.id == id) = true ∧ n' = applyNoteUpdate old d now := by
  intro l
  induction l with
  | nil => intro n' l' h; simp [updateNoteInList] at h
  | cons n ns ih =>
    intro n' l' h
    by_cases hid : (n.id == id) = true
    · simp [updateNoteInList, hid] at h
      exact ⟨[], n, ns, by simp, by rw [← h.2, h.1]; rfl, hid, h.1.symm⟩
    · simp only [updateNoteInList, hid, if_neg, Bool.false_eq_true, if_false] at h
      cases hrec : updateNoteInList id d now ns with
      | none => rw [hrec] at h; simp at h
      | some r =>
        rw [hrec] at h
        obtain ⟨m, ms⟩ := r
        simp at h
        obtain ⟨p, old, q, hl, hl', hold, hn'⟩ := ih m ms hrec
        refine ⟨n :: p, old, q, by simp [hl], ?_, hold, by rw [← h.1]; exact hn'⟩
        simp [← h.2, hl', h.1]

/-- The helper `updateNoteInList` fails exactly when no element matches. -/
theorem updateNoteInList_none_iff (id : String) (d : UpdateNoteDto) (now : Nat)
    (l : List Note) :
    updateNoteInList id d now l = none ↔ ∀ x ∈ l, (x.id == id) = false := by
  induction l with
  | nil => simp [updateNoteInList]
  | cons n ns ih =>
    by_cases hid : (n.id == id) = true
    · simp [updateNoteInList, hid]
      intro hne
      exact absurd (show n.id = id by simpa using hid) hne
    · simp only [updateNoteInList, hid, Bool.false_eq_true, if_false]
      cases hrec : updateNoteInList id d now ns with
      | none =>
        simp only [hrec, true_iff] at ih ⊢
        simp_all
      | some r =>
        rw [hrec] at ih
        simp only [List.mem_cons]
        constructor
        · intro h; simp at h
        · intro h
          exact absurd (ih.mpr (fun x hx => h x (Or.inr hx))) (by simp)

/-- The helper `updateTodoInList` succeeds exactly by splitting the list at the first
matching element and replacing it with its updated version. -/
theorem updateTodoInList_some_spec (id : String) (d : UpdateTodoDto) (now : Nat) :
    ∀ (l : List Todo) (t' : Todo) (l' : List Todo),
      updateTodoInList id d now l = some (t', l') →
      ∃ p old q, l = p ++ old :: q ∧ l' = p ++ t' :: q ∧
        (old.id == id) = true ∧ t' = applyTodoUpdate old d now := by
  intro l
  induction l with
  | nil => intro t' l' h; simp [updateTodoInList] at h
  | cons t ts ih =>
    intro t' l' h
    by_cases hid : (t.id == id) = true
    · simp [updateTodoInList, hid] at h
      exact ⟨[], t, ts, by simp, by rw [← h.2, h.1]; rfl, hid, h.1.symm⟩
    · simp only [updateTodoInList, hid, Bool.false_eq_true, if_false] at h
      cases hrec : updateTodoInList id d now ts with
      | none => rw [hrec] at h; simp at h
      | some r =>
        rw [hrec] at h
        obtain ⟨m, ms⟩ := r
        simp at h
        obtain ⟨p, old, q, hl, hl', hold, ht'⟩ := ih m ms hrec
        refine ⟨t :: p, old, q, by simp [hl], ?_, hold, by rw [← h.1]; exact ht'⟩
        simp [← h.2, hl', h.1]

/-- The helper `updateTodoInList` fails exactly when no element matches. -/
theorem updateTodoInList_none_iff (id : String) (d : UpdateTodoDto) (now : Nat)
    (l : List Todo) :
    updateTodoInList id d now l = none ↔ ∀ x ∈ l, (x.id == id) = false := by
  induction l with
  | nil => simp [updateTodoInList]
  | cons t ts ih =>
    by_cases hid : (t.id == id) = true
    · simp [updateTodoInList, hid]
      intro hne
      exact absurd (show t.id = id by simpa using hid) hne
    · simp only [updateTodoInList, hid, Bool.false_eq_true, if_false]
      cases hrec : updateTodoInList id d now ts with
      | none =>
        simp only [hrec, true_iff] at ih ⊢
        simp_all
      | some r =>
        rw [hrec] at ih
        simp only [List.mem_cons]
        constructor
        · intro h; simp at h
        · intro h
          exact absurd (ih.mpr (fun x hx => h x (Or.inr hx))) (by simp)

/-- What `saveNotes` leaves under the notes key. -/
theorem storedNotes_saveNotes (l : List Note) (s : Store) :
    storedNotes (NoteService.saveNotes l s) = l := by
  simp [storedNotes, NoteService.saveNotes, AsyncStorage.setItem]

/-- What `saveTodos` leaves under the todos key. -/
theorem storedTodos_saveTodos (l : List Todo) (s : Store) :
    storedTodos (TodoService.saveTodos l s) = l := by
  simp [storedTodos, TodoService.saveTodos, AsyncStorage.setItem]

/-- When some stored note has the requested id, `updateNote` succeeds: it
returns the spread-update of the first matching loaded note and stores it. -/
theorem updateNote_found_spec (s : Store) (ns : List Note) (id : String)
    (d : UpdateNoteDto) (now : Nat)
    (hf : s.failing NoteService.STORAGE_KEY = false)
    (hv : s.vals NoteService.STORAGE_KEY = some (RawVal.notesJson ns))
    (hmem : ∃ n ∈ ns, n.id = id) :
    ∃ old res s2, NoteService.updateNote id d now s = (Except.ok res, s2) ∧
      old ∈ ns ∧ old.id = id ∧ res = applyNoteUpdate old d now ∧
      res ∈ storedNotes s2 := by
  have hload : NoteService.getNotes s = ns.mergeSort noteLE := getNotes_good hf hv
  obtain ⟨n0, hn0, hid0⟩ := hmem
  have hn0' : n0 ∈ ns.mergeSort noteLE :=
    ((List.mergeSort_perm ns noteLE).mem_iff).mpr hn0
  cases hu : updateNoteInList id d now (ns.mergeSort noteLE) with
  | none =>
    have := (updateNoteInList_none_iff id d now _).mp hu n0 hn0'
    simp [hid0] at this
  | some r =>
    obtain ⟨res, l'⟩ := r
    obtain ⟨p, old, q, hl, hl', hold, hres⟩ :=
      updateNoteInList_some_spec id d now _ res l' hu
    refine ⟨old, res, NoteService.saveNotes l' s, ?_, ?_, by simpa using hold, hres, ?_⟩
    · simp only [NoteService.updateNote, hload, hu]
    · exact ((List.mergeSort_perm ns noteLE).mem_iff).mp (hl ▸ List.mem_append_right p (List.mem_cons_self _ _))
    · rw [storedNotes_saveNotes, hl']
      exact List.mem_append_right p (List.mem_cons_self _ _)

/-- When some stored todo has the requested id, `updateTodo` succeeds: it
returns the spread-update of the first matching loaded todo and stores it. -/
theorem updateTodo_found_spec (t : Store) (ts : List Todo) (id : String)
    (d : UpdateTodoDto) (now : Nat)
    (hf : t.failing TodoService.STORAGE_KEY = false)
    (hv : t.vals TodoService.STORAGE_KEY = some (RawVal.todosJson ts))
    (hmem : ∃ x ∈ ts, x.id = id) :
    ∃ old res t2, TodoService.updateTodo id d now t = (Except.ok res, t2) ∧
      old ∈ ts ∧ old.id = id ∧ res = applyTodoUpdate old d now ∧
      res ∈ storedTodos t2 := by
  have hload : TodoService.getTodos t = ts := getTodos_good hf hv
  obtain ⟨t0, ht0, hid0⟩ := hmem
  cases hu : updateTodoInList id d now ts with
  | none =>
    have := (updateTodoInList_none_iff id d now _).mp hu t0 ht0
    simp [hid0] at this
  | some r =>
    obtain ⟨res, l'⟩ := r
    obtain ⟨p, old, q, hl, hl', hold, hres⟩ :=
      updateTodoInList_some_spec id d now _ res l' hu
    refine ⟨old, res, TodoService.saveTodos l' t, ?_, ?_, by simpa using hold, hres, ?_⟩
    · simp only [TodoService.updateTodo, hload, hu]
    · exact hl ▸ List.mem_append_right p (List.mem_cons_self _ _)
    · rw [storedTodos_saveTodos, hl']
      exact List.mem_append_right p (List.mem_cons_self _ _)

/-- C2: updating an existing record sets `updatedAt` to the current clock
value (the new ISO timestamp), keeps `id` and `createdAt`, keeps every field
that is absent from the dto, and the returned record is the stored one. -/
theorem C2_update_frame (s t : Store) (ns : List Note) (ts : List Todo)
    (idn idt : String) (dn : UpdateNoteDto) (dt : UpdateTodoDto) (now : Nat)
    (hnf : s.failing NoteService.STORAGE_KEY = false)
    (hnv : s.vals NoteService.STORAGE_KEY = some (RawVal.notesJson ns))
    (htf : t.failing TodoService.STORAGE_KEY = false)
    (htv : t.vals TodoService.STORAGE_KEY = some (RawVal.todosJson ts))
    (hmemN : ∃ n ∈ ns, n.id = idn)
    (hmemT : ∃ x ∈ ts, x.id = idt) :
    (∃ old res s2, NoteService.updateNote idn dn now s = (Except.ok res, s2) ∧
      old ∈ ns ∧ old.id = idn ∧
      res.updatedAt = now ∧ res.id = old.id ∧ res.createdAt = old.createdAt ∧
      (dn.title = none → res.title = old.title) ∧
      (dn.content = none → res.content = old.content) ∧
      (dn.category = none → res.category = old.category) ∧
      (dn.tags = none → res.tags = old.tags) ∧
      (dn.isPinned = none → res.isPinned = old.isPinned) ∧
      res ∈ storedNotes s2) ∧
    (∃ old res t2, TodoService.updateTodo idt dt now t = (Except.ok res, t2) ∧
      old ∈ ts ∧ old.id = idt ∧
      res.updatedAt = now ∧ res.id = old.id ∧ res.createdAt = old.createdAt ∧
      (dt.title = none → res.title = old.title) ∧
      (dt.description = none → res.description = old.description) ∧
      (dt.priority = none → res.priority = old.priority) ∧
      (dt.dueDate = none → res.dueDate = old.dueDate) ∧
      (dt.completed = none → res.completed = old.completed) ∧
      res ∈ storedTodos t2) := by
  constructor
  · obtain ⟨old, res, s2, heq, hmem, hid, hres, hstored⟩ :=
      updateNote_found_spec s ns idn dn now hnf hnv hmemN
    subst hres
    refine ⟨old, _, s2, heq, hmem, hid, rfl, rfl, rfl, ?_, ?_, ?_, ?_, ?_, hstored⟩ <;>
      intro hnone <;> simp [applyNoteUpdate, hnone]
  · obtain ⟨old, res, t2, heq, hmem, hid, hres, hstored⟩ :=
      updateTodo_found_spec t ts idt dt now htf htv hmemT
    subst hres
    refine ⟨old, _, t2, heq, hmem, hid, rfl, rfl, rfl, ?_, ?_, ?_, ?_, ?_, hstored⟩ <;>
      intro hnone <;> simp [applyTodoUpdate, hnone]

theorem C2_witness :
    (∃ old res s2,
      NoteService.updateNote "10"
        { title := some "new", content := none, category := none, tags := none,
          isPinned := none } 100 exStore = (Except.ok res, s2) ∧
      old ∈ [exNoteA, exNoteB, exNoteC] ∧ old.id = "10" ∧
      res.updatedAt = 100 ∧ res.id = old.id ∧ res.createdAt = old.createdAt ∧
      (some "new" = (none : Option String) → res.title = old.title) ∧
      ((none : Option String) = none → res.content = old.content) ∧
      ((none : Option (Option String)) = none → res.category = old.category) ∧
      ((none : Option (Option (List String))) = none → res.tags = old.tags) ∧
      ((none : Option Bool) = none → res.isPinned = old.isPinned) ∧
      res ∈ storedNotes s2) ∧
    (∃ old res t2,
      TodoService.updateTodo "20"
        { title := none, description := none, priority := none, dueDate := none,
          completed := some true } 100 exStore = (Except.ok res, t2) ∧
      old ∈ [exTodoA, exTodoB] ∧ old.id = "20" ∧
      res.updatedAt = 100 ∧ res.id = old.id ∧ res.createdAt = old.createdAt ∧
      ((none : Option String) = none → res.title = old.title) ∧
      ((none : Option (Option String)) = none → res.description = old.description) ∧
      ((none : Option Priority) = none → res.priority = old.priority) ∧
      ((none : Option (Option String)) = none → res.dueDate = old.dueDate) ∧
      (some true = (none : Option Bool) → res.completed = old.completed) ∧
      res ∈ storedTodos t2) :=
  C2_update_frame exStore exStore [exNoteA, exNoteB, exNoteC] [exTodoA, exTodoB]
    "10" "20"
    { title := some "new", content := none, category := none, tags := none,
      isPinned := none }
    { title := none, description := none, priority := none, dueDate := none,
      completed := some true } 100 rfl rfl rfl rfl
    ⟨exNoteA, by simp, rfl⟩ ⟨exTodoA, by simp, rfl⟩

/-- C8: for an id absent from the stored collection, `updateNote` and
`updateTodo` throw (`Note not found` / `Todo not found`) instead of returning
null, leaving the store untouched, while `togglePinNote` and `toggleTodo`
return null without throwing. -/
theorem C8_missing_id (s t : Store) (idn idt : String) (dn : UpdateNoteDto)
    (dt : UpdateTodoDto) (now : Nat)
    (hN : ∀ n ∈ NoteService.getNotes s, (n.id == idn) = false)
    (hT : ∀ x ∈ TodoService.getTodos t, (x.id == idt) = false) :
    NoteService.updateNote idn dn now s = (Except.error "Note not found", s) ∧
    TodoService.updateTodo idt dt now t = (Except.error "Todo not found", t) ∧
    NoteService.togglePinNote idn now s = (Except.ok none, s) ∧
    TodoService.toggleTodo idt now t = (Except.ok none, t) := by
  have hun : updateNoteInList idn dn now (NoteService.getNotes s) = none :=
    (updateNoteInList_none_iff idn dn now _).mpr hN
  have hut : updateTodoInList idt dt now (TodoService.getTodos t) = none :=
    (updateTodoInList_none_iff idt dt now _).mpr hT
  have hfindN : NoteService.getNoteById idn s = none := by
    simp only [NoteService.getNoteById]
    exact List.find?_eq_none.mpr (fun x hx => by simp [hN x hx])
  have hfindT : TodoService.getTodoById idt t = none := by
    simp only [TodoService.getTodoById]
    exact List.find?_eq_none.mpr (fun x hx => by simp [hT x hx])
  refine ⟨?_, ?_, ?_, ?_⟩
  · simp only [NoteService.updateNote, hun]
  · simp only [TodoService.updateTodo, hut]
  · simp only [NoteService.togglePinNote, hfindN]
  · simp only [TodoService.toggleTodo, hfindT]

theorem C8_witness :
    NoteService.updateNote "zzz"
      { title := none, content := none, category := none, tags := none,
        isPinned := some true } 100 exStore = (Except.error "Note not found", exStore) ∧
    TodoService.updateTodo "zzz"
      { title := none, description := none, priority := none, dueDate := none,
        completed := some true } 100 exStore = (Except.error "Todo not found", exStore) ∧
    NoteService.togglePinNote "zzz" 100 exStore = (Except.ok none, exStore) ∧
    TodoService.toggleTodo "zzz" 100 exStore = (Except.ok none, exStore) :=
  C8_missing_id exStore exStore "zzz" "zzz"
    { title := none, content := none, category := none, tags := none,
      isPinned := some true }
    { title := none, description := none, priority := none, dueDate := none,
      completed := some true } 100
    (by
      intro n hn
      rw [@getNotes_good exStore [exNoteA, exNoteB, exNoteC] rfl rfl] at hn
      have hmem :=
        (List.mergeSort_perm [exNoteA, exNoteB, exNoteC] noteLE).mem_iff.mp hn
      simp only [List.mem_cons, List.not_mem_nil, or_false] at hmem
      rcases hmem with rfl | rfl | rfl <;> decide)
    (by
      intro x hx
      rw [@getTodos_good exStore [exTodoA, exTodoB] rfl rfl] at hx
      simp only [List.mem_cons, List.not_mem_nil, or_false] at hx
      rcases hx with rfl | rfl <;> decide)

/-- C9: delete removes exactly the records carrying the given id, deleting an
absent id preserves the stored records, and deletion is idempotent. -/
theorem C9_delete (s t : Store) (ns : List Note) (ts : List Todo)
    (idn idt : String)
    (hnf : s.failing NoteService.STORAGE_KEY = false)
    (hnv : s.vals NoteService.STORAGE_KEY = some (RawVal.notesJson ns))
    (htf : t.failing TodoService.STORAGE_KEY = false)
    (htv : t.vals TodoService.STORAGE_KEY = some (RawVal.todosJson ts)) :
    (storedNotes (NoteService.deleteNote idn s)).Perm
      (ns.filter (fun n => !(n.id == idn))) ∧
    ((∀ n ∈ ns, (n.id == idn) = false) →
      (storedNotes (NoteService.deleteNote idn s)).Perm ns) ∧
    storedNotes (NoteService.deleteNote idn (NoteService.deleteNote idn s)) =
      storedNotes (NoteService.deleteNote idn s) ∧
    storedTodos (TodoService.deleteTodo idt t) = ts.filter (fun x => !(x.id == idt)) ∧
    ((∀ x ∈ ts, (x.id == idt) = false) →
      storedTodos (TodoService.deleteTodo idt t) = ts) ∧
    storedTodos (TodoService.deleteTodo idt (TodoService.deleteTodo idt t)) =
      storedTodos (TodoService.deleteTodo idt t) := by
  have hloadN : NoteService.getNotes s = ns.mergeSort noteLE := getNotes_good hnf hnv
  have hloadT : TodoService.getTodos t = ts := getTodos_good htf htv
  have hstored1 : storedNotes (NoteService.deleteNote idn s) =
      (ns.mergeSort noteLE).filter (fun n => !(n.id == idn)) := by
    simp only [NoteService.deleteNote, hloadN, storedNotes_saveNotes]
  have hpermfilter : ((ns.mergeSort noteLE).filter (fun n => !(n.id == idn))).Perm
      (ns.filter (fun n => !(n.id == idn))) :=
    (List.mergeSort_perm ns noteLE).filter _
  have hstoredT1 : storedTodos (TodoService.deleteTodo idt t) =
      ts.filter (fun x => !(x.id == idt)) := by
    simp only [TodoService.deleteTodo, hloadT, storedTodos_saveTodos]
  refine ⟨hstored1 ▸ hpermfilter, ?_, ?_, hstoredT1, ?_, ?_⟩
  · intro habsent
    have : (ns.mergeSort noteLE).filter (fun n => !(n.id == idn)) = ns.mergeSort noteLE :=
      List.filter_eq_self.mpr (fun n hn => by
        simp [habsent n (((List.mergeSort_perm ns noteLE).mem_iff).mp hn)])
    rw [hstored1, this]
    exact List.mergeSort_perm ns noteLE
  · have hf2 : (NoteService.deleteNote idn s).failing NoteService.STORAGE_KEY = false := hnf
    have hv2 : (NoteService.deleteNote idn s).vals NoteService.STORAGE_KEY =
        some (RawVal.notesJson ((ns.mergeSort noteLE).filter (fun n => !(n.id == idn)))) := by
      simp only [NoteService.deleteNote, hloadN, NoteService.saveNotes,
        AsyncStorage.setItem, if_pos]
    have hsorted : ((ns.mergeSort noteLE).filter (fun n => !(n.id == idn))).Pairwise
        (fun a b => noteLE a b = true) :=
      (List.sorted_mergeSort noteLE_trans noteLE_total ns).filter _
    have hload2 : NoteService.getNotes (NoteService.deleteNote idn s) =
        (ns.mergeSort noteLE).filter (fun n => !(n.id == idn)) := by
      rw [getNotes_good hf2 hv2]
      exact List.mergeSort_of_sorted hsorted
    have e1 : storedNotes (NoteService.deleteNote idn (NoteService.deleteNote idn s)) =
        (NoteService.getNotes (NoteService.deleteNote idn s)).filter
          (fun n => !(n.id == idn)) := by
      simp only [NoteService.deleteNote, storedNotes_saveNotes]
    rw [e1, hload2, hstored1]
    exact List.filter_eq_self.mpr (fun n hn => (List.mem_filter.mp hn).2)
  · intro habsent
    rw [hstoredT1]
    exact List.filter_eq_self.mpr (fun x hx => by simp [habsent x hx])
  · have hf2 : (TodoService.deleteTodo idt t).failing TodoService.STORAGE_KEY = false := htf
    have hv2 : (TodoService.deleteTodo idt t).vals TodoService.STORAGE_KEY =
        some (RawVal.todosJson (ts.filter (fun x => !(x.id == idt)))) := by
      simp only [TodoService.deleteTodo, hloadT, TodoService.saveTodos,
        AsyncStorage.setItem, if_pos]
    have hload2 : TodoService.getTodos (TodoService.deleteTodo idt t) =
        ts.filter (fun x => !(x.id == idt)) := getTodos_good hf2 hv2
    have e1 : storedTodos (TodoService.deleteTodo idt (TodoService.deleteTodo idt t)) =
        (TodoService.getTodos (TodoService.deleteTodo idt t)).filter
          (fun x => !(x.id == idt)) := by
      simp only [TodoService.deleteTodo, storedTodos_saveTodos]
    rw [e1, hload2, hstoredT1]
    exact List.filter_eq_self.mpr (fun x hx => (List.mem_filter.mp hx).2)

theorem C9_witness :
    (storedNotes (NoteService.deleteNote "10" exStore)).Perm
      ([exNoteA, exNoteB, exNoteC].filter (fun n => !(n.id == "10"))) ∧
    ((∀ n ∈ [exNoteA, exNoteB, exNoteC], (n.id == "10") = false) →
      (storedNotes (NoteService.deleteNote "10" exStore)).Perm [exNoteA, exNoteB, exNoteC]) ∧
    storedNotes (NoteService.deleteNote "10" (NoteService.deleteNote "10" exStore)) =
      storedNotes (NoteService.deleteNote "10" exStore) ∧
    storedTodos (TodoService.deleteTodo "20" exStore) =
      [exTodoA, exTodoB].filter (fun x => !(x.id == "20")) ∧
    ((∀ x ∈ [exTodoA, exTodoB], (x.id == "20") = false) →
      storedTodos (TodoService.deleteTodo "20" exStore) = [exTodoA, exTodoB]) ∧
    storedTodos (TodoService.deleteTodo "20" (TodoService.deleteTodo "20" exStore)) =
      storedTodos (TodoService.deleteTodo "20" exStore) :=
  C9_delete exStore exStore [exNoteA, exNoteB, exNoteC] [exTodoA, exTodoB]
    "10" "20" rfl rfl rfl rfl

/-- The records other than a given id, in order (`filter (x.id !== id)`). -/
def othersN (id : String) (l : List Note) : List Note :=
  l.filter (fun n => !(n.id == id))

/-- The records other than a given id, in order (`filter (x.id !== id)`). -/
def othersT (id : String) (l : List Todo) : List Todo :=
  l.filter (fun x => !(x.id == id))

/-- Decomposition of the list stored by a successful `updateNote`: the loaded
(sorted) list split at the first match, with the match replaced. -/
theorem updateNote_stored_decomp (s : Store) (ns : List Note) (id : String)
    (d : UpdateNoteDto) (now : Nat)
    (hf : s.failing NoteService.STORAGE_KEY = false)
    (hv : s.vals NoteService.STORAGE_KEY = some (RawVal.notesJson ns))
    (hmem : ∃ n ∈ ns, n.id = id) :
    ∃ p old q, ns.mergeSort noteLE = p ++ old :: q ∧ (old.id == id) = true ∧
      storedNotes (NoteService.updateNote id d now s).2 =
        p ++ applyNoteUpdate old d now :: q := by
  have hload : NoteService.getNotes s = ns.mergeSort noteLE := getNotes_good hf hv
  obtain ⟨n0, hn0, hid0⟩ := hmem
  have hn0' : n0 ∈ ns.mergeSort noteLE :=
    ((List.mergeSort_perm ns noteLE).mem_iff).mpr hn0
  cases hu : updateNoteInList id d now (ns.mergeSort noteLE) with
  | none =>
    have := (updateNoteInList_none_iff id d now _).mp hu n0 hn0'
    simp [hid0] at this
  | some r =>
    obtain ⟨res, l'⟩ := r
    obtain ⟨p, old, q, hl, hl', hold, hres⟩ :=
      updateNoteInList_some_spec id d now _ res l' hu
    refine ⟨p, old, q, hl, hold, ?_⟩
    simp only [NoteService.updateNote, hload, hu, storedNotes_saveNotes]
    rw [hl', hres]

/-- Decomposition of the list stored by a successful `updateTodo`: the loaded
list split at the first match, with the match replaced. -/
theorem updateTodo_stored_decomp (t : Store) (ts : List Todo) (id : String)
    (d : UpdateTodoDto) (now : Nat)
    (hf : t.failing TodoService.STORAGE_KEY = false)
    (hv : t.vals TodoService.STORAGE_KEY = some (RawVal.todosJson ts))
    (hmem : ∃ x ∈ ts, x.id = id) :
    ∃ p old q, ts = p ++ old :: q ∧ (old.id == id) = true ∧
      storedTodos (TodoService.updateTodo id d now t).2 =
        p ++ applyTodoUpdate old d now :: q := by
  have hload : TodoService.getTodos t = ts := getTodos_good hf hv
  obtain ⟨t0, ht0, hid0⟩ := hmem
  cases hu : updateTodoInList id d now ts with
  | none =>
    have := (updateTodoInList_none_iff id d now _).mp hu t0 ht0
    simp [hid0] at this
  | some r =>
    obtain ⟨res, l'⟩ := r
    obtain ⟨p, old, q, hl, hl', hold, hres⟩ :=
      updateTodoInList_some_spec id d now _ res l' hu
    refine ⟨p, old, q, hl, hold, ?_⟩
    simp only [TodoService.updateTodo, hload, hu, storedTodos_saveTodos]
    rw [hl', hres]

def exN1 : Note :=
  { id := "1", title := "first", content := "x", category := none, tags := none,
    isPinned := false, createdAt := 1, updatedAt := 1 }

def exN2 : Note :=
  { id := "2", title := "second", content := "y", category := none, tags := none,
    isPinned := false, createdAt := 2, updatedAt := 2 }

/-- A store holding the two unpinned notes in non-sorted order. -/
def exC4Store : Store :=
  { vals := fun k => if k = "@notes" then some (RawVal.notesJson [exN1, exN2]) else none
    failing := fun _ => false }

unseal List.merge List.mergeSort in
theorem exC4_sort_eval : [exN1, exN2].mergeSort noteLE = [exN2, exN1] := by decide

/-- C4 fails as stated: deleting an id that matches no record still reorders
the stored note collection (the sorting load is written back), so the
untouched records are not kept in their original relative order. -/
theorem C4_counterexample :
    exN1.id ≠ "zzz" ∧ exN2.id ≠ "zzz" ∧
    storedNotes exC4Store = [exN1, exN2] ∧
    storedNotes (NoteService.deleteNote "zzz" exC4Store) = [exN2, exN1] ∧
    ([exN2, exN1] : List Note) ≠ [exN1, exN2] := by
  refine ⟨by decide, by decide, rfl, ?_, by decide⟩
  have hload : NoteService.getNotes exC4Store = [exN2, exN1] := by
    rw [@getNotes_good exC4Store [exN1, exN2] rfl rfl, exC4_sort_eval]
  simp only [NoteService.deleteNote, hload, storedNotes_saveNotes]
  decide

/-- C4 (amended): every mutating single-id operation loads the full
collection, mutates the array and writes the whole collection back, and every
record with a different id stays present and unchanged; the todo operations
also keep those records in their original relative order, while the note
operations store them in the order of the sorting load (pinned first, then
`updatedAt` descending). -/
theorem C4_amended_frame (s t : Store) (ns : List Note) (ts : List Todo)
    (dn : CreateNoteDto) (dtc : CreateTodoDto) (dnu : UpdateNoteDto)
    (dtu : UpdateTodoDto) (idn idt idn2 idt2 : String) (now : Nat)
    (hnf : s.failing NoteService.STORAGE_KEY = false)
    (hnv : s.vals NoteService.STORAGE_KEY = some (RawVal.notesJson ns))
    (htf : t.failing TodoService.STORAGE_KEY = false)
    (htv : t.vals TodoService.STORAGE_KEY = some (RawVal.todosJson ts))
    (hmemN : ∃ n ∈ ns, n.id = idn)
    (hmemT : ∃ x ∈ ts, x.id = idt) :
    othersT (Nat.repr now) (storedTodos (TodoService.createTodo dtc now t).2) =
      othersT (Nat.repr now) ts ∧
    othersT idt (storedTodos (TodoService.updateTodo idt dtu now t).2) =
      othersT idt ts ∧
    othersT idt2 (storedTodos (TodoService.deleteTodo idt2 t)) = othersT idt2 ts ∧
    (othersN (Nat.repr now) (storedNotes (NoteService.createNote dn now s).2)).Perm
      (othersN (Nat.repr now) ns) ∧
    othersN (Nat.repr now) (storedNotes (NoteService.createNote dn now s).2) =
      othersN (Nat.repr now) (ns.mergeSort noteLE) ∧
    (othersN idn (storedNotes (NoteService.updateNote idn dnu now s).2)).Perm
      (othersN idn ns) ∧
    othersN idn (storedNotes (NoteService.updateNote idn dnu now s).2) =
      othersN idn (ns.mergeSort noteLE) ∧
    (othersN idn2 (storedNotes (NoteService.deleteNote idn2 s))).Perm
      (othersN idn2 ns) ∧
    othersN idn2 (storedNotes (NoteService.deleteNote idn2 s)) =
      othersN idn2 (ns.mergeSort noteLE) := by
  have hloadN : NoteService.getNotes s = ns.mergeSort noteLE := getNotes_good hnf hnv
  have hloadT : TodoService.getTodos t = ts := getTodos_good htf htv
  have hpermN : ∀ idq : String,
      (othersN idq (ns.mergeSort noteLE)).Perm (othersN idq ns) :=
    fun idq => (List.mergeSort_perm ns noteLE).filter _
  have hTcreate : othersT (Nat.repr now)
      (storedTodos (TodoService.createTodo dtc now t).2) = othersT (Nat.repr now) ts := by
    simp only [TodoService.createTodo, hloadT, storedTodos_saveTodos, othersT,
      List.filter_append]
    simp [mkTodo]
  have hTupdate : othersT idt (storedTodos (TodoService.updateTodo idt dtu now t).2) =
      othersT idt ts := by
    obtain ⟨p, old, q, hts, hold, hstored⟩ :=
      updateTodo_stored_decomp t ts idt dtu now htf htv hmemT
    rw [hstored, hts]
    simp only [othersT, List.filter_append, List.filter_cons]
    have hid' : (applyTodoUpdate old dtu now).id = old.id := rfl
    simp [hid', hold]
  have hTdelete : othersT idt2 (storedTodos (TodoService.deleteTodo idt2 t)) =
      othersT idt2 ts := by
    simp only [TodoService.deleteTodo, hloadT, storedTodos_saveTodos, othersT]
    exact List.filter_eq_self.mpr (fun x hx => (List.mem_filter.mp hx).2)
  have hNcreate : othersN (Nat.repr now)
      (storedNotes (NoteService.createNote dn now s).2) =
      othersN (Nat.repr now) (ns.mergeSort noteLE) := by
    simp only [NoteService.createNote, hloadN, storedNotes_saveNotes, othersN,
      List.filter_append]
    simp [mkNote]
  have hNupdate : othersN idn (storedNotes (NoteService.updateNote idn dnu now s).2) =
      othersN idn (ns.mergeSort noteLE) := by
    obtain ⟨p, old, q, hns, hold, hstored⟩ :=
      updateNote_stored_decomp s ns idn dnu now hnf hnv hmemN
    rw [hstored, hns]
    simp only [othersN, List.filter_append, List.filter_cons]
    have hid' : (applyNoteUpdate old dnu now).id = old.id := rfl
    simp [hid', hold]
  have hNdelete : othersN idn2 (storedNotes (NoteService.deleteNote idn2 s)) =
      othersN idn2 (ns.mergeSort noteLE) := by
    simp only [NoteService.deleteNote, hloadN, storedNotes_saveNotes, othersN]
    exact List.filter_eq_self.mpr (fun n hn => (List.mem_filter.mp hn).2)
  exact ⟨hTcreate, hTupdate, hTdelete, hNcreate ▸ hpermN _, hNcreate,
    hNupdate ▸ hpermN _, hNupdate, hNdelete ▸ hpermN _, hNdelete⟩

theorem C4_witness :
    othersT (Nat.repr 100) (storedTodos (TodoService.createTodo
      { title := "t", description := none, priority := none, dueDate := none }
      100 exStore).2) = othersT (Nat.repr 100) [exTodoA, exTodoB] ∧
    othersT "20" (storedTodos (TodoService.updateTodo "20"
      { title := none, description := none, priority := none, dueDate := none,
        completed := some true } 100 exStore).2) = othersT "20" [exTodoA, exTodoB] ∧
    othersT "21" (storedTodos (TodoService.deleteTodo "21" exStore)) =
      othersT "21" [exTodoA, exTodoB] ∧
    (othersN (Nat.repr 100) (storedNotes (NoteService.createNote
      { title := "n", content := "c", category := none, tags := none,
        isPinned := none } 100 exStore).2)).Perm
      (othersN (Nat.repr 100) [exNoteA, exNoteB, exNoteC]) ∧
    othersN (Nat.repr 100) (storedNotes (NoteService.createNote
      { title := "n", content := "c", category := none, tags := none,
        isPinned := none } 100 exStore).2) =
      othersN (Nat.repr 100) ([exNoteA, exNoteB, exNoteC].mergeSort noteLE) ∧
    (othersN "10" (storedNotes (NoteService.updateNote "10"
      { title := none, content := none, category := none, tags := none,
        isPinned := some true } 100 exStore).2)).Perm
      (othersN "10" [exNoteA, exNoteB, exNoteC]) ∧
    othersN "10" (storedNotes (NoteService.updateNote "10"
      { title := none, content := none, category := none, tags := none,
        isPinned := some true } 100 exStore).2) =
      othersN "10" ([exNoteA, exNoteB, exNoteC].mergeSort noteLE) ∧
    (othersN "12" (storedNotes (NoteService.deleteNote "12" exStore))).Perm
      (othersN "12" [exNoteA, exNoteB, exNoteC]) ∧
    othersN "12" (storedNotes (NoteService.deleteNote "12" exStore)) =
      othersN "12" ([exNoteA, exNoteB, exNoteC].mergeSort noteLE) :=
  C4_amended_frame exStore exStore [exNoteA, exNoteB, exNoteC] [exTodoA, exTodoB]
    { title := "n", content := "c", category := none, tags := none, isPinned := none }
    { title := "t", description := none, priority := none, dueDate := none }
    { title := none, content := none, category := none, tags := none,
      isPinned := some true }
    { title := none, description := none, priority := none, dueDate := none,
      completed := some true }
    "10" "20" "12" "21" 100 rfl rfl rfl rfl
    ⟨exNoteA, by simp, rfl⟩ ⟨exTodoA, by simp, rfl⟩

/-- The write `saveNotes` touches only the notes key and leaves `failing` alone. -/
theorem saveNotes_frame (l : List Note) (s : Store) :
    (NoteService.saveNotes l s).failing = s.failing ∧
    ∀ k, k ≠ NoteService.STORAGE_KEY → (NoteService.saveNotes l s).vals k = s.vals k := by
  refine ⟨rfl, fun k hk => ?_⟩
  simp [NoteService.saveNotes, AsyncStorage.setItem, hk]

/-- The write `saveTodos` touches only the todos key and leaves `failing` alone. -/
theorem saveTodos_frame (l : List Todo) (t : Store) :
    (TodoService.saveTodos l t).failing = t.failing ∧
    ∀ k, k ≠ TodoService.STORAGE_KEY → (TodoService.saveTodos l t).vals k = t.vals k := by
  refine ⟨rfl, fun k hk => ?_⟩
  simp [TodoService.saveTodos, AsyncStorage.setItem, hk]

/-- The store returned by `updateNote` is the input store or a `saveNotes`. -/
theorem updateNote_snd_cases (id : String) (d : UpdateNoteDto) (now : Nat)
    (s : Store) :
    (NoteService.updateNote id d now s).2 = s ∨
    ∃ l, (NoteService.updateNote id d now s).2 = NoteService.saveNotes l s := by
  cases h : updateNoteInList id d now (NoteService.getNotes s) with
  | none => exact Or.inl (by simp only [NoteService.updateNote, h])
  | some r => exact Or.inr ⟨r.2, by simp only [NoteService.updateNote, h]⟩

/-- The store returned by `updateTodo` is the input store or a `saveTodos`. -/
theorem updateTodo_snd_cases (id : String) (d : UpdateTodoDto) (now : Nat)
    (t : Store) :
    (TodoService.updateTodo id d now t).2 = t ∨
    ∃ l, (TodoService.updateTodo id d now t).2 = TodoService.saveTodos l t := by
  cases h : updateTodoInList id d now (TodoService.getTodos t) with
  | none => exact Or.inl (by simp only [TodoService.updateTodo, h])
  | some r => exact Or.inr ⟨r.2, by simp only [TodoService.updateTodo, h]⟩

/-- The store returned by `togglePinNote` is the input store or a `saveNotes`. -/
theorem togglePinNote_snd_cases (id : String) (now : Nat) (s : Store) :
    (NoteService.togglePinNote id now s).2 = s ∨
    ∃ l, (NoteService.togglePinNote id now s).2 = NoteService.saveNotes l s := by
  cases h : NoteService.getNoteById id s with
  | none => exact Or.inl (by simp only [NoteService.togglePinNote, h])
  | some n =>
    have := updateNote_snd_cases id
      { title := none, content := none, category := none, tags := none,
        isPinned := some (!n.isPinned) } now s
    rcases this with h2 | ⟨l, h2⟩
    · exact Or.inl (by simp only [NoteService.togglePinNote, h]; exact h2)
    · exact Or.inr ⟨l, by simp only [NoteService.togglePinNote, h]; exact h2⟩

/-- The store returned by `toggleTodo` is the input store or a `saveTodos`. -/
theorem toggleTodo_snd_cases (id : String) (now : Nat) (t : Store) :
    (TodoService.toggleTodo id now t).2 = t ∨
    ∃ l, (TodoService.toggleTodo id now t).2 = TodoService.saveTodos l t := by
  cases h : TodoService.getTodoById id t with
  | none => exact Or.inl (by simp only [TodoService.toggleTodo, h])
  | some x =>
    have := updateTodo_snd_cases id
      { title := none, description := none, priority := none, dueDate := none,
        completed := some (!x.completed) } now t
    rcases this with h2 | ⟨l, h2⟩
    · exact Or.inl (by simp only [TodoService.toggleTodo, h]; exact h2)
    · exact Or.inr ⟨l, by simp only [TodoService.toggleTodo, h]; exact h2⟩

/-- C7: note-service operations read and write only the `@notes` entry, and
todo-service operations only the `@todos` entry: each operation's output
depends only on its own entry (shown for the reads), any other key and the
failure map are untouched by the writes, and each service's mutations leave
the other service's stored collection unchanged. -/
theorem C7_key_isolation (s s2 t t2 : Store) (k q : String)
    (dn : CreateNoteDto) (dtc : CreateTodoDto) (dnu : UpdateNoteDto)
    (dtu : UpdateTodoDto) (idn idt : String) (now : Nat)
    (hk : k ≠ NoteService.STORAGE_KEY) (hq : q ≠ TodoService.STORAGE_KEY)
    (hNv : s.vals NoteService.STORAGE_KEY = s2.vals NoteService.STORAGE_KEY)
    (hNf : s.failing NoteService.STORAGE_KEY = s2.failing NoteService.STORAGE_KEY)
    (hTv : t.vals TodoService.STORAGE_KEY = t2.vals TodoService.STORAGE_KEY)
    (hTf : t.failing TodoService.STORAGE_KEY = t2.failing TodoService.STORAGE_KEY) :
    ((NoteService.createNote dn now s).2.vals k = s.vals k ∧
     (NoteService.updateNote idn dnu now s).2.vals k = s.vals k ∧
     (NoteService.deleteNote idn s).vals k = s.vals k ∧
     (NoteService.togglePinNote idn now s).2.vals k = s.vals k ∧
     (NoteService.clearAllNotes s).vals k = s.vals k) ∧
    ((NoteService.createNote dn now s).2.failing = s.failing ∧
     (NoteService.updateNote idn dnu now s).2.failing = s.failing ∧
     (NoteService.deleteNote idn s).failing = s.failing ∧
     (NoteService.togglePinNote idn now s).2.failing = s.failing ∧
     (NoteService.clearAllNotes s).failing = s.failing) ∧
    (storedTodos (NoteService.createNote dn now s).2 = storedTodos s ∧
     storedTodos (NoteService.updateNote idn dnu now s).2 = storedTodos s ∧
     storedTodos (NoteService.deleteNote idn s) = storedTodos s ∧
     storedTodos (NoteService.togglePinNote idn now s).2 = storedTodos s ∧
     storedTodos (NoteService.clearAllNotes s) = storedTodos s) ∧
    ((TodoService.createTodo dtc now t).2.vals q = t.vals q ∧
     (TodoService.updateTodo idt dtu now t).2.vals q = t.vals q ∧
     (TodoService.deleteTodo idt t).vals q = t.vals q ∧
     (TodoService.toggleTodo idt now t).2.vals q = t.vals q ∧
     (TodoService.clearAllTodos t).vals q = t.vals q) ∧
    ((TodoService.createTodo dtc now t).2.failing = t.failing ∧
     (TodoService.updateTodo idt dtu now t).2.failing = t.failing ∧
     (TodoService.deleteTodo idt t).failing = t.failing ∧
     (TodoService.toggleTodo idt now t).2.failing = t.failing ∧
     (TodoService.clearAllTodos t).failing = t.failing) ∧
    (storedNotes (TodoService.createTodo dtc now t).2 = storedNotes t ∧
     storedNotes (TodoService.updateTodo idt dtu now t).2 = storedNotes t ∧
     storedNotes (TodoService.deleteTodo idt t) = storedNotes t ∧
     storedNotes (TodoService.toggleTodo idt now t).2 = storedNotes t ∧
     storedNotes (TodoService.clearAllTodos t) = storedNotes t) ∧
    NoteService.getNotes s = NoteService.getNotes s2 ∧
    TodoService.getTodos t = TodoService.getTodos t2 := by
  have hTn : TodoService.STORAGE_KEY ≠ NoteService.STORAGE_KEY := by decide
  have hNt : NoteService.STORAGE_KEY ≠ TodoService.STORAGE_KEY := by decide
  have noteVals : ∀ k', k' ≠ NoteService.STORAGE_KEY →
      (NoteService.createNote dn now s).2.vals k' = s.vals k' ∧
      (NoteService.updateNote idn dnu now s).2.vals k' = s.vals k' ∧
      (NoteService.deleteNote idn s).vals k' = s.vals k' ∧
      (NoteService.togglePinNote idn now s).2.vals k' = s.vals k' ∧
      (NoteService.clearAllNotes s).vals k' = s.vals k' := by
    intro k' hk'
    refine ⟨(saveNotes_frame _ s).2 k' hk', ?_, (saveNotes_frame _ s).2 k' hk', ?_, ?_⟩
    · rcases updateNote_snd_cases idn dnu now s with h | ⟨l, h⟩
      · rw [h]
      · rw [h]; exact (saveNotes_frame l s).2 k' hk'
    · rcases togglePinNote_snd_cases idn now s with h | ⟨l, h⟩
      · rw [h]
      · rw [h]; exact (saveNotes_frame l s).2 k' hk'
    · simp [NoteService.clearAllNotes, AsyncStorage.removeItem, hk']
  have todoVals : ∀ q', q' ≠ TodoService.STORAGE_KEY →
      (TodoService.createTodo dtc now t).2.vals q' = t.vals q' ∧
      (TodoService.updateTodo idt dtu now t).2.vals q' = t.vals q' ∧
      (TodoService.deleteTodo idt t).vals q' = t.vals q' ∧
      (TodoService.toggleTodo idt now t).2.vals q' = t.vals q' ∧
      (TodoService.clearAllTodos t).vals q' = t.vals q' := by
    intro q' hq'
    refine ⟨(saveTodos_frame _ t).2 q' hq', ?_, (saveTodos_frame _ t).2 q' hq', ?_, ?_⟩
    · rcases updateTodo_snd_cases idt dtu now t with h | ⟨l, h⟩
      · rw [h]
      · rw [h]; exact (saveTodos_frame l t).2 q' hq'
    · rcases toggleTodo_snd_cases idt now t with h | ⟨l, h⟩
      · rw [h]
      · rw [h]; exact (saveTodos_frame l t).2 q' hq'
    · simp [TodoService.clearAllTodos, AsyncStorage.removeItem, hq']
  obtain ⟨hv1, hv2, hv3, hv4, hv5⟩ := noteVals k hk
  obtain ⟨hw1, hw2, hw3, hw4, hw5⟩ := todoVals q hq
  obtain ⟨ht1, ht2, ht3, ht4, ht5⟩ := noteVals TodoService.STORAGE_KEY hTn
  obtain ⟨hn1, hn2, hn3, hn4, hn5⟩ := todoVals NoteService.STORAGE_KEY hNt
  refine ⟨⟨hv1, hv2, hv3, hv4, hv5⟩, ⟨rfl, ?_, rfl, ?_, rfl⟩,
    ⟨?_, ?_, ?_, ?_, ?_⟩, ⟨hw1, hw2, hw3, hw4, hw5⟩, ⟨rfl, ?_, rfl, ?_, rfl⟩,
    ⟨?_, ?_, ?_, ?_, ?_⟩, ?_, ?_⟩
  · rcases updateNote_snd_cases idn dnu now s with h | ⟨l, h⟩ <;> (rw [h]; try rfl)
  · rcases togglePinNote_snd_cases idn now s with h | ⟨l, h⟩ <;> (rw [h]; try rfl)
  · simp only [storedTodos, ht1]
  · simp only [storedTodos, ht2]
  · simp only [storedTodos, ht3]
  · simp only [storedTodos, ht4]
  · simp only [storedTodos, ht5]
  · rcases updateTodo_snd_cases idt dtu now t with h | ⟨l, h⟩ <;> (rw [h]; try rfl)
  · rcases toggleTodo_snd_cases idt now t with h | ⟨l, h⟩ <;> (rw [h]; try rfl)
  · simp only [storedNotes, hn1]
  · simp only [storedNotes, hn2]
  · simp only [storedNotes, hn3]
  · simp only [storedNotes, hn4]
  · simp only [storedNotes, hn5]
  · simp only [NoteService.getNotes, AsyncStorage.getItem, hNv, hNf]
  · simp only [TodoService.getTodos, AsyncStorage.getItem, hTv, hTf]

def exCn : CreateNoteDto :=
  { title := "n", content := "c", category := none, tags := none, isPinned := none }

def exCt : CreateTodoDto :=
  { title := "t", description := none, priority := none, dueDate := none }

def exUn : UpdateNoteDto :=
  { title := none, content := none, category := none, tags := none,
    isPinned := some true }

def exUt : UpdateTodoDto :=
  { title := none, description := none, priority := none, dueDate := none,
    completed := some true }

theorem C7_witness :
    ((NoteService.createNote exCn 100 exStore).2.vals "x" = exStore.vals "x" ∧
     (NoteService.updateNote "10" exUn 100 exStore).2.vals "x" = exStore.vals "x" ∧
     (NoteService.deleteNote "10" exStore).vals "x" = exStore.vals "x" ∧
     (NoteService.togglePinNote "10" 100 exStore).2.vals "x" = exStore.vals "x" ∧
     (NoteService.clearAllNotes exStore).vals "x" = exStore.vals "x") ∧
    ((NoteService.createNote exCn 100 exStore).2.failing = exStore.failing ∧
     (NoteService.updateNote "10" exUn 100 exStore).2.failing = exStore.failing ∧
     (NoteService.deleteNote "10" exStore).failing = exStore.failing ∧
     (NoteService.togglePinNote "10" 100 exStore).2.failing = exStore.failing ∧
     (NoteService.clearAllNotes exStore).failing = exStore.failing) ∧
    (storedTodos (NoteService.createNote exCn 100 exStore).2 = storedTodos exStore ∧
     storedTodos (NoteService.updateNote "10" exUn 100 exStore).2 = storedTodos exStore ∧
     storedTodos (NoteService.deleteNote "10" exStore) = storedTodos exStore ∧
     storedTodos (NoteService.togglePinNote "10" 100 exStore).2 = storedTodos exStore ∧
     storedTodos (NoteService.clearAllNotes exStore) = storedTodos exStore) ∧
    ((TodoService.createTodo exCt 100 exStore).2.vals "y" = exStore.vals "y" ∧
     (TodoService.updateTodo "20" exUt 100 exStore).2.vals "y" = exStore.vals "y" ∧
     (TodoService.deleteTodo "20" exStore).vals "y" = exStore.vals "y" ∧
     (TodoService.toggleTodo "20" 100 exStore).2.vals "y" = exStore.vals "y" ∧
     (TodoService.clearAllTodos exStore).vals "y" = exStore.vals "y") ∧
    ((TodoService.createTodo exCt 100 exStore).2.failing = exStore.failing ∧
     (TodoService.updateTodo "20" exUt 100 exStore).2.failing = exStore.failing ∧
     (TodoService.deleteTodo "20" exStore).failing = exStore.failing ∧
     (TodoService.toggleTodo "20" 100 exStore).2.failing = exStore.failing ∧
     (TodoService.clearAllTodos exStore).failing = exStore.failing) ∧
    (storedNotes (TodoService.createTodo exCt 100 exStore).2 = storedNotes exStore ∧
     storedNotes (TodoService.updateTodo "20" exUt 100 exStore).2 = storedNotes exStore ∧
     storedNotes (TodoService.deleteTodo "20" exStore) = storedNotes exStore ∧
     storedNotes (TodoService.toggleTodo "20" 100 exStore).2 = storedNotes exStore ∧
     storedNotes (TodoService.clearAllTodos exStore) = storedNotes exStore) ∧
    NoteService.getNotes exStore = NoteService.getNotes exStore ∧
    TodoService.getTodos exStore = TodoService.getTodos exStore :=
  C7_key_isolation exStore exStore exStore exStore "x" "y"
    exCn exCt exUn exUt "10" "20" 100
    (by decide) (by decide) rfl rfl rfl rfl
